import Mathlib

/-!
# Verification of the `proxies_log` repository

Shallow embedding of the two programs in the repository:

* the SNI blocking tunnel proxy (TypeScript source embedded in `README.md`):
  the TLS ClientHello parser `extractSNI` and the first-chunk connection
  handler of `net.createServer`;
* the HTTP/CONNECT forward proxy (`src/server.ts`): destination resolution
  of `handleHttpRequest`, the CONNECT handler `handleHttpsConnect`, and the
  statistics computation `getStats`.

Buffers are modelled as `List Nat` (byte values); JavaScript strings as
`String`.  `Buffer.readUInt16BE` throws `ERR_OUT_OF_RANGE` when the read
would cross the end of the buffer (or when the offset is `NaN`), which is
modelled by `Option` (`none` = the call throws).
-/

namespace ProxiesLog

/-! ## TLS ClientHello parser (`extractSNI`, README.md source) -/

/-- `Buffer.readUInt16BE(i)`: big-endian 16-bit read.  `none` models the
`ERR_OUT_OF_RANGE` exception Node raises when `i + 2` exceeds the buffer
length (reading `this[i]` or `this[i+1]` as `undefined` triggers
`boundsError`). -/
def readU16 (data : List Nat) (i : Nat) : Option Nat :=
  match data.get? i, data.get? (i + 1) with
  | some hi, some lo => some (hi * 256 + lo)
  | _, _ => none

/-- Result of a call to `extractSNI`: the returned hostname bytes
(`Buffer.slice(..).toString('utf8')`, kept as the raw bytes), the JS value
`null`, or an exception escaping the function. -/
inductive SNIResult where
  | hostname (bytes : List Nat)
  | noHost
  | thrown
  deriving DecidableEq

/-- The extension-scanning `while` loop of `extractSNI`:

```
while (i + 4 <= end && i + 4 <= data.length) {
  const extType = data.readUInt16BE(i);
  const extLen = data.readUInt16BE(i + 2);
  i += 4;
  if (extType === 0x00 && i + extLen <= data.length) {
    const sniListLen = data.readUInt16BE(i + 2);
    const sniType = data[i + 4];
    const sniLen = data.readUInt16BE(i + 5);
    const sni = data.slice(i + 7, i + 7 + sniLen).toString('utf8');
    return sni;
  }
  i += extLen;
}
return null;
```

`stop` is the JS variable `end`.  The loop advances `i` by at least 4 per
iteration, so it runs at most `extensionsLength / 4 + 1` times; `extLoop`
is called with `fuel = extensionsLength + 1`, and at fuel exhaustion
(after `extensionsLength + 1` iterations `i ≥ i₀ + 4·(extensionsLength+1)`,
so `i + 4 ≤ i₀ + extensionsLength` is false) the JS loop would also have
exited, returning `null`; hence the fuel-0 result `noHost` is exact.

Note the reads inside the `if`: `sniListLen` is read at `i + 2` and the
name length at `i + 5` — offsets 2 and 5 into the extension payload —
and the hostname at `i + 7`, although the server-name extension payload
places the list length at offset 0, the name length at offset 3 and the
hostname at offset 5.  `data[i + 4]` (`sniType`) is an unchecked index
(yields `undefined` out of bounds) whose value is unused, so it is not
modelled; the two `readUInt16BE` calls can throw. -/
def extLoop (data : List Nat) (stop : Nat) : Nat → Nat → SNIResult
  | 0, _ => SNIResult.noHost
  | fuel + 1, i =>
    if i + 4 ≤ stop ∧ i + 4 ≤ data.length then
      match readU16 data i, readU16 data (i + 2) with
      | some extType, some extLen =>
        if extType = 0 ∧ i + 4 + extLen ≤ data.length then
          match readU16 data (i + 4 + 2), readU16 data (i + 4 + 5) with
          | some _sniListLen, some sniLen =>
            SNIResult.hostname ((data.drop (i + 4 + 7)).take sniLen)
          | _, _ => SNIResult.thrown
        else extLoop data stop fuel (i + 4 + extLen)
      | _, _ => SNIResult.thrown
    else SNIResult.noHost

/-- `extractSNI(data)` from the README source, line by line.  `data.slice`
clamps both bounds, modelled by `drop`/`take`.

The unguarded `const compressionMethodLength = data[i]` is the one read
with no preceding bounds check: when `i ≥ data.length` the JS index yields
`undefined`, `i += 1 + undefined` makes `i` equal `NaN`, the following
test `NaN + 2 > data.length` is false, and `data.readUInt16BE(NaN)` throws
`ERR_OUT_OF_RANGE`; that path is the `thrown` branch of the `match` on
`data.get? i`. -/
def extractSNI (data : List Nat) : SNIResult :=
  if data.get? 0 ≠ some 0x16 then SNIResult.noHost  -- data[0] !== 0x16: not a TLS handshake
  else
    -- i += 5 (record header); i += 38 (fixed-length handshake header)
    let i := 43
    if i ≥ data.length then SNIResult.noHost
    else
      let sessionIDLength := (data.get? i).getD 0  -- in bounds: i < data.length
      let i := i + 1 + sessionIDLength
      if i + 2 > data.length then SNIResult.noHost
      else
        match readU16 data i with
        | none => SNIResult.thrown  -- unreachable: bounds checked just above
        | some cipherSuiteLength =>
          let i := i + 2 + cipherSuiteLength
          match data.get? i with
          | none => SNIResult.thrown  -- data[i] is undefined; see the doc comment
          | some compressionMethodLength =>
            let i := i + 1 + compressionMethodLength
            if i + 2 > data.length then SNIResult.noHost
            else
              match readU16 data i with
              | none => SNIResult.thrown  -- unreachable: bounds checked just above
              | some extensionsLength =>
                let i := i + 2
                extLoop data (i + extensionsLength) (extensionsLength + 1) i

/-- Byte list of an ASCII string (the UTF-8 bytes of every hostname
appearing in the claims are plain ASCII, where UTF-8 is the identity). -/
def strBytes (s : String) : List Nat := s.toList.map Char.toNat

/-- A well-formed 72-byte TLS ClientHello whose single extension is a
standard server-name extension for `example.com`: record header
`16 03 01 00 43`; handshake header `01 <len 00003f> 03 03` + 32 random
bytes; session-id length 0; cipher-suite list `00 02 13 01`; compression
methods `01 00`; extensions length `00 14`; extension type `00 00`,
length `00 10`, payload = list length `00 0e`, name type `00`, name
length `00 0b`, then the 11 bytes of `example.com`. -/
def helloWellFormed : List Nat :=
  [0x16, 0x03, 0x01, 0x00, 0x43,
   0x01, 0x00, 0x00, 0x3f, 0x03, 0x03] ++ List.replicate 32 0 ++
  [0x00,
   0x00, 0x02, 0x13, 0x01,
   0x01, 0x00,
   0x00, 0x14,
   0x00, 0x00, 0x00, 0x10,
   0x00, 0x0e, 0x00, 0x00, 0x0b] ++ strBytes "example.com"

/-- A 46-byte truncated handshake: `0x16` followed by 45 zero bytes.  The
parser reaches `data[46]` (one past the end) when reading the
compression-methods length. -/
def helloTruncated : List Nat := 0x16 :: List.replicate 45 0

/-! ## SNI blocking tunnel proxy (`net.createServer` handler, README.md source) -/

/-- `const BLOCKED_DOMAINS = new Set(['www.facebook.com', 'example.com'])`.
Membership is exact string equality; for these ASCII-only names, equality of
the UTF-8 decoding coincides with equality of the raw bytes (no valid UTF-8
alternative encodes the same ASCII string). -/
def BLOCKED_DOMAINS : List (List Nat) := [strBytes "www.facebook.com", strBytes "example.com"]

/-- What the first-chunk handler does with a connection:

* `crashed` — `extractSNI` threw, so the `once('data')` callback aborts
  before taking any action;
* `blocked` — `clientSocket.end()` and `return`: the client connection is
  closed, no upstream connection is opened and no byte is written upstream;
* `forward host port firstWrite` — `net.connect(port, host, cb)` where the
  connect callback `cb` first executes `remoteSocket.write(firstWrite)` and
  only then `clientSocket.pipe(remoteSocket).pipe(clientSocket)`, so
  `firstWrite` reaches the upstream before any subsequently received client
  bytes, and thereafter bytes are bridged bidirectionally unmodified. -/
inductive TunnelAction where
  | crashed
  | blocked
  | forward (host : List Nat) (port : Nat) (firstWrite : List Nat)
  deriving DecidableEq

/-- The `clientSocket.once('data', ...)` handler:

```
const sni = extractSNI(data);
if (sni && BLOCKED_DOMAINS.has(sni)) {
  console.log(`Blocked: ...`);
  clientSocket.end(); // Drop connection
  return;
}
const remoteSocket = net.connect(443, sni || '', () => {
  remoteSocket.write(data);
  clientSocket.pipe(remoteSocket).pipe(clientSocket);
});
```

`sni && ...` is false both for `null` and for the empty string, and
`sni || ''` replaces both by `''`. -/
def handleFirstChunk (data : List Nat) : TunnelAction :=
  match extractSNI data with
  | SNIResult.thrown => TunnelAction.crashed
  | SNIResult.noHost => TunnelAction.forward [] 443 data
  | SNIResult.hostname h =>
    if h ≠ [] ∧ h ∈ BLOCKED_DOMAINS then TunnelAction.blocked
    else TunnelAction.forward (if h = [] then [] else h) 443 data

/-- Byte sequence written to the upstream socket after a successful
connect: the replayed first chunk, then the client chunks received later,
in order (`remoteSocket.write(data)` precedes `clientSocket.pipe(remoteSocket)`). -/
def upstreamWrites (firstChunk : List Nat) (laterClientChunks : List (List Nat)) : List Nat :=
  firstChunk ++ laterClientChunks.flatten

/-- A 71-byte first chunk that the (off-by-two) parser maps to the blocked
hostname `example.com`: the extension payload carries the name length
`00 0b` at payload offset 5 and the hostname bytes at payload offset 7,
which is where `extractSNI` actually reads them. -/
def helloBlocked : List Nat :=
  [0x16, 0x03, 0x01, 0x00, 0x42,
   0x01, 0x00, 0x00, 0x3e, 0x03, 0x03] ++ List.replicate 32 0 ++
  [0x00,
   0x00, 0x00,
   0x00,
   0x00, 0x16,
   0x00, 0x00, 0x00, 0x12,
   0x00, 0x00, 0x00, 0x00, 0x00,
   0x00, 0x0b] ++ strBytes "example.com"

/-- Claim C3: whenever the first chunk of a tunnel connection yields an
SNI hostname that is a member of the Block List, the client connection is
closed and zero bytes are ever written to any upstream socket (no upstream
connection is opened). -/
theorem blocked_sni_drops_connection (data h : List Nat)
    (hsni : extractSNI data = SNIResult.hostname h)
    (hmem : h ∈ BLOCKED_DOMAINS) :
    handleFirstChunk data = TunnelAction.blocked := by
  have hne : h ≠ [] := by
    have hmem' : h = strBytes "www.facebook.com" ∨ h = strBytes "example.com" := by
      simpa [BLOCKED_DOMAINS] using hmem
    rcases hmem' with h1 | h1 <;> (subst h1; decide)
  unfold handleFirstChunk
  rw [hsni]
  simp [hne, hmem]

/-- Witness for C3 at the concrete first chunk `helloBlocked`, whose
parsed SNI is `example.com`, a Block List member. -/
theorem blocked_sni_drops_connection_witness :
    extractSNI helloBlocked = SNIResult.hostname (strBytes "example.com") ∧
      strBytes "example.com" ∈ BLOCKED_DOMAINS ∧
      handleFirstChunk helloBlocked = TunnelAction.blocked :=
  ⟨by decide, by decide,
    blocked_sni_drops_connection helloBlocked (strBytes "example.com")
      (by decide) (by decide)⟩

/-- Claim C4: for a first chunk whose SNI hostname is not in the Block
List (or with no extracted hostname, using the empty target), the handler
connects to port 443 of that hostname and, on successful connect, writes
the originally received chunk verbatim to the upstream before any
subsequently received client bytes; thereafter bytes are bridged
bidirectionally (encoded in `TunnelAction.forward` and `upstreamWrites`). -/
theorem unblocked_sni_forwards (data h : List Nat) (laterChunks : List (List Nat))
    (hcase : (extractSNI data = SNIResult.hostname h ∧ h ∉ BLOCKED_DOMAINS) ∨
      (extractSNI data = SNIResult.noHost ∧ h = [])) :
    handleFirstChunk data = TunnelAction.forward h 443 data ∧
      upstreamWrites data laterChunks = data ++ laterChunks.flatten := by
  refine ⟨?_, rfl⟩
  rcases hcase with ⟨hsni, hmem⟩ | ⟨hsni, hnil⟩
  · unfold handleFirstChunk
    rw [hsni]
    rcases eq_or_ne h [] with hnil | hnil
    · simp [hnil]
    · simp [hnil, hmem]
  · subst hnil
    unfold handleFirstChunk
    rw [hsni]

/-- Witness for C4 at the concrete chunk `helloWellFormed`, whose parsed
SNI `"ample.com"` is not in the Block List. -/
theorem unblocked_sni_forwards_witness :
    handleFirstChunk helloWellFormed =
        TunnelAction.forward (strBytes "ample.com") 443 helloWellFormed ∧
      upstreamWrites helloWellFormed [[1, 2]] =
        helloWellFormed ++ [[1, 2]].flatten :=
  unblocked_sni_forwards helloWellFormed (strBytes "ample.com") [[1, 2]]
    (Or.inl ⟨by decide, by decide⟩)

/-- Claim C1: for every well-formed TLS ClientHello buffer whose
server-name extension encodes the SNI hostname `"example.com"` (2-byte
server-name-list length, 1-byte name type, 2-byte name length, then the
hostname bytes), `extractSNI` returns exactly `"example.com"`.

The code violates this: on the well-formed ClientHello `helloWellFormed`
it returns `"ample.com"`.  The name length is read at payload offset 5
instead of 3, so it picks up the bytes `'e' 'x'` (= 25976) of the
hostname itself, and the returned slice starts at offset 7, two bytes
into the hostname, clamped to the end of the buffer. -/
theorem extractSNI_wellformed_returns_ample_com :
    extractSNI helloWellFormed = SNIResult.hostname (strBytes "ample.com") := by
  decide

/-- Claim C2: for every input buffer, truncated ones included, the parser
returns "no hostname" and never throws.  The code violates this:
on `helloTruncated` the cursor lands exactly one byte past the end when
reading the compression-methods length, `i` becomes `NaN`, and
`data.readUInt16BE(NaN)` throws `ERR_OUT_OF_RANGE`. -/
theorem extractSNI_truncated_throws :
    extractSNI helloTruncated = SNIResult.thrown := by
  decide

/-! ## HTTP/CONNECT forward proxy (`src/server.ts`) -/

/-- JS string truthiness default: `s || d` (the empty string is falsy),
for an optional (`undefined`-able) string. -/
def jsOr (s : Option String) (d : String) : String :=
  match s with
  | some u => if u = "" then d else u
  | none => d

/-- `parseInt` on the digit strings this program feeds it (port fields):
the value of the maximal leading run of decimal digits, `none` for `NaN`
when the string does not start with a digit.  (Sign, whitespace and radix
handling of full `parseInt` are never exercised here.) -/
def jsParseInt (s : String) : Option Nat :=
  let digits := s.toList.takeWhile Char.isDigit
  if digits.isEmpty then none
  else some (digits.foldl (fun n c => n * 10 + (c.toNat - 48)) 0)

/-- `parseInt(s) || fallback`: `NaN` and `0` are falsy. -/
def jsParseIntOr (s : String) (fallback : Nat) : Nat :=
  match jsParseInt s with
  | some n => if n = 0 then fallback else n
  | none => fallback

/-- `s.startsWith(p)` for JS strings. -/
def startsWithStr (s p : String) : Bool := p.toList.isPrefixOf s.toList

/-- `s.split(c)` for a single-character separator, on character lists;
always returns at least one (possibly empty) group, like JS `split`. -/
def splitOnChar (c : Char) : List Char → List (List Char)
  | [] => [[]]
  | a :: rest =>
    match splitOnChar c rest with
    | [] => [[]]  -- unreachable: the result is always nonempty
    | grp :: gs => if a = c then [] :: grp :: gs else (a :: grp) :: gs

/-- The fields of legacy `url.parse` consulted by `handleHttpRequest`. -/
structure ParsedUrl where
  protocol : String
  hostname : String
  port : Option String
  path : Option String
  deriving DecidableEq

/-- Legacy `url.parse`, modelled for the request-line URIs the proxy
receives (`scheme://host[:port]/path`, the only shape reaching this call:
the caller has already checked the `http://` / `https://` prefix).
`hostname` is the authority up to the first `:`, lowercased as legacy
`url.parse` does; `port` is the digits after the `:` when present;
`path` is everything from the first `/` after the authority (`null` when
the URI has no path, as in `http://example.com`). -/
def urlParse (s : String) : ParsedUrl :=
  let (protocol, rest) :=
    if startsWithStr s "https://" then ("https:", s.toList.drop 8)
    else if startsWithStr s "http://" then ("http:", s.toList.drop 7)
    else ("", s.toList)
  let hostport := rest.takeWhile (fun c => c ≠ '/')
  let pathCs := rest.drop hostport.length
  let hostCs := hostport.takeWhile (fun c => c ≠ ':')
  let portCs := hostport.drop (hostCs.length + 1)
  { protocol := protocol
    hostname := String.mk (hostCs.map Char.toLower)
    port := if hostCs.length = hostport.length ∨ portCs = [] then none
            else some (String.mk portCs)
    path := if pathCs = [] then none else some (String.mk pathCs) }

/-- Destination resolution of `handleHttpRequest` (hostname, path, port),
following the three branches of the source:

```
let hostname: string; let path: string; let port: number = 80;
if (req.url?.startsWith("http://") || req.url?.startsWith("https://")) {
  const reqUrl = url.parse(req.url);
  hostname = reqUrl.hostname || "";
  path = reqUrl.path || "/";
  port = parseInt(reqUrl.port || "80") ||
         (reqUrl.protocol === "https:" ? 443 : 80);
} else if (req.headers.host) {
  const [hostPart, portPart] = req.headers.host.split(":");
  hostname = hostPart || "";
  port = parseInt(portPart || "80") || 80;
  path = req.url || "/";
} else {
  const urlMatch = req.url?.match(/^https?:\/\/([^/]+)(.*)/);
  if (urlMatch) { ... } else { hostname = ""; path = req.url || "/"; }
}
```

When `reqUrl.port` is absent, `parseInt("80")` is `80` — truthy — so the
`https:`-to-443 alternative is only consulted when an explicit port parses
to `0` or `NaN`.  The third-branch regular expression `^https?:\/\/([^/]+)(.*)`
matches exactly the strings starting with `http://` or `https://` followed
by at least one non-`/` character; since the first branch already captured
every URL with those prefixes, a match there is only possible for `urlMatch`
of `undefined` `req.url`, i.e. never, but the branch is modelled as written. -/
def resolveDest (reqUrl : Option String) (hostHeader : Option String) :
    String × String × Nat :=
  if (reqUrl.map (fun u => startsWithStr u "http://" || startsWithStr u "https://")).getD false then
    let u := urlParse (jsOr reqUrl "")
    let port :=
      match u.port with
      | some p => match jsParseInt p with
        | some n => if n = 0 then (if u.protocol = "https:" then 443 else 80) else n
        | none => if u.protocol = "https:" then 443 else 80
      | none => 80  -- parseInt("80") = 80, truthy: the https default is dead here
    (u.hostname, jsOr u.path "/", port)
  else if jsOr hostHeader "" ≠ "" then
    let parts := splitOnChar ':' (jsOr hostHeader "").toList
    let hostPart := String.mk (parts.headD [])
    let portPart := (parts.get? 1).map String.mk
    (jsOr (some hostPart) "",
      jsOr reqUrl "/",
      jsParseIntOr (jsOr portPart "80") 80)
  else
    let urlMatch : Option (List Char × List Char) :=
      match reqUrl with
      | none => none
      | some u =>
        let rest :=
          if startsWithStr u "https://" then some (u.toList.drop 8)
          else if startsWithStr u "http://" then some (u.toList.drop 7)
          else none
        match rest with
        | none => none
        | some r =>
          let hp := r.takeWhile (fun c => c ≠ '/')
          if hp = [] then none else some (hp, r.drop hp.length)
    match urlMatch with
    | some (hostPort, urlPath) =>
      -- hostPort is nonempty (the capture group is `[^/]+`), so `if (hostPort)` holds
      let parts := splitOnChar ':' hostPort
      (String.mk (parts.headD []),
        jsOr (some (String.mk urlPath)) "/",
        jsParseIntOr (jsOr ((parts.get? 1).map String.mk) "80") 80)
    | none => ("", jsOr reqUrl "/", 80)

/-- Observable actions of `handleHttpRequest` after the debug logging:
a response writeHead to the client, an append to the audit log, or the
outbound forwarded request. -/
inductive HttpEvent where
  | respond (status : Nat)
  | logAppend (method hostname path : String)
  | forward (hostname : String) (port : Nat) (path : String)
  deriving DecidableEq

/-- `handleHttpRequest` (validation, audit append and forward):

```
if (!hostname || hostname === "unknown" || hostname === "") {
  res.writeHead(400);
  res.end("Bad Request - Could not determine target hostname");
  return;
}
this.logRequest({ ..., method: req.method!, hostname, path, protocol: "HTTP", ... });
const proxyReq = http.request({ hostname, port, path, ... }, ...);
```

`!hostname` is true exactly for the empty string, so the guard is
`hostname = "" ∨ hostname = "unknown"`. -/
def handleHttpRequest (method : String) (reqUrl hostHeader : Option String) :
    List HttpEvent :=
  let d := resolveDest reqUrl hostHeader
  if d.1 = "" ∨ d.1 = "unknown" then [HttpEvent.respond 400]
  else [HttpEvent.logAppend method d.1 d.2.1, HttpEvent.forward d.1 d.2.2 d.2.1]

/-- Claim C5: for a request line carrying an absolute URI with no explicit
port, the resolved outbound port is 80 for http and 443 for https.  The
code violates the https half: `parseInt(reqUrl.port || "80")` evaluates to
the truthy `80` when the port is absent, so the `https:`-to-443 fallback
is never consulted and the resolved port is 80. -/
theorem https_uri_without_port_resolves_to_80 :
    resolveDest (some "https://example.com/") none = ("example.com", "/", 80) := by
  decide

/-- Observable actions of `handleHttpsConnect`, in program order. -/
inductive ConnectEvent where
  | logAppend (method hostname : String)
  | upstreamConnect (hostname : String) (port : Nat)
  | clientWrite (s : String)
  | pipeBoth
  | clientEnd
  deriving DecidableEq

/-- `parseConnectUrl`: `connectUrl.split(":")`, destructured into the
first two components; `hostname || ""` and `port || "443"`. -/
def parseConnectUrl (connectUrl : String) : String × String :=
  match splitOnChar ':' connectUrl.toList with
  | [] => ("", "443")  -- unreachable: split always returns at least one group
  | [h] => (jsOr (some (String.mk h)) "", "443")
  | h :: p :: _ => (jsOr (some (String.mk h)) "", jsOr (some (String.mk p)) "443")

/-- `handleHttpsConnect(req, clientSocket, head)` as its event trace.
The source calls `this.logRequest({ method: "CONNECT", ... })` *before*
`net.connect`; the Boolean `connectOk` selects between the connect
callback (200 line, `serverSocket.write(head)`, bidirectional pipes) and
the `error` handler (`clientSocket.end()`):

```
const { hostname, port } = this.parseConnectUrl(req.url!);
this.logRequest({ ..., method: "CONNECT", hostname, path: "/", protocol: "HTTPS", ... });
const serverSocket = net.connect(parseInt(port) || 443, hostname, () => {
  clientSocket.write("HTTP/1.1 200 Connection Established\r\n\r\n");
  serverSocket.write(head);
  serverSocket.pipe(clientSocket);
  clientSocket.pipe(serverSocket);
});
serverSocket.on("error", (err) => { ...; clientSocket.end(); });
``` -/
def handleHttpsConnect (connectUrl : String) (connectOk : Bool) : List ConnectEvent :=
  let hp := parseConnectUrl connectUrl
  [ConnectEvent.logAppend "CONNECT" hp.1,
   ConnectEvent.upstreamConnect hp.1 (jsParseIntOr hp.2 443)] ++
  (if connectOk then
    [ConnectEvent.clientWrite "HTTP/1.1 200 Connection Established\r\n\r\n",
     ConnectEvent.pipeBoth]
  else [ConnectEvent.clientEnd])

/-- Number of audit LogEntry appends with method `"CONNECT"` in a trace. -/
def numConnectLogs (evs : List ConnectEvent) : Nat :=
  (evs.filter (fun e => match e with
    | ConnectEvent.logAppend m _ => m == "CONNECT"
    | _ => false)).length

/-- Counterexample to claim C6: a CONNECT request whose upstream TCP
connection fails still appends one LogEntry with method `"CONNECT"`
(the append happens before `net.connect`), contradicting "never for a
failed upstream connect". -/
theorem connect_failure_still_logs :
    numConnectLogs (handleHttpsConnect "example.com:443" false) ≠ 0 := by
  decide

/-- Claim C6 as amended: for every CONNECT request, exactly one LogEntry
with method `"CONNECT"` is emitted — when the CONNECT request is handled,
before the upstream connection attempt and regardless of whether that
attempt succeeds — and never per byte transferred. -/
theorem one_connect_log_per_request (connectUrl : String) (connectOk : Bool) :
    numConnectLogs (handleHttpsConnect connectUrl connectOk) = 1 ∧
      (handleHttpsConnect connectUrl connectOk).head? =
        some (ConnectEvent.logAppend "CONNECT" (parseConnectUrl connectUrl).1) := by
  cases connectOk <;> simp [handleHttpsConnect, numConnectLogs, List.filter]

/-- Claim C7: when no hostname can be determined by any of the three
resolution strategies, the proxy responds 400 with a diagnostic body,
opens no upstream connection, and appends no LogEntry. -/
theorem unresolved_hostname_responds_400 (method : String)
    (reqUrl hostHeader : Option String)
    (hres : (resolveDest reqUrl hostHeader).1 = "") :
    handleHttpRequest method reqUrl hostHeader = [HttpEvent.respond 400] := by
  simp [handleHttpRequest, hres]

/-- Witness for C7: a request with a relative URL and no Host header
resolves to no hostname and yields exactly the 400 response. -/
theorem unresolved_hostname_responds_400_witness :
    (resolveDest (some "/index.html") none).1 = "" ∧
      handleHttpRequest "GET" (some "/index.html") none = [HttpEvent.respond 400] :=
  ⟨by decide, unresolved_hostname_responds_400 "GET" (some "/index.html") none (by decide)⟩

/-- Claim C10: a request whose resolved hostname is the literal string
`"unknown"` is treated exactly like an unresolved destination: 400
response, no forward, no LogEntry. -/
theorem unknown_hostname_responds_400 (method : String)
    (reqUrl hostHeader : Option String)
    (hres : (resolveDest reqUrl hostHeader).1 = "unknown") :
    handleHttpRequest method reqUrl hostHeader = [HttpEvent.respond 400] := by
  simp [handleHttpRequest, hres]

/-- Witness for C10: a Host header of `unknown` resolves syntactically to
the hostname `"unknown"` yet yields exactly the 400 response. -/
theorem unknown_hostname_responds_400_witness :
    (resolveDest (some "/") (some "unknown")).1 = "unknown" ∧
      handleHttpRequest "GET" (some "/") (some "unknown") = [HttpEvent.respond 400] :=
  ⟨by decide, unknown_hostname_responds_400 "GET" (some "/") (some "unknown") (by decide)⟩

/-! ## Audit log statistics (`getStats`, `src/server.ts`)

`getStats` folds the `LogEntry` list into a `Map<string, number>` of
per-hostname counts (JS `Map` iteration order is key insertion order, and
`Map.set` on an existing key keeps its position, so the entry order is
first-seen order), turns it into an array, sorts it with
`.sort((a, b) => b.count - a.count)` and takes `.slice(0, 10)`.
`Array.prototype.sort` is stable (ECMAScript 2019), and a stable sort by a
total preorder has a unique result, modelled here by the stable insertion
sort `sortDesc`: it inserts each element before the first element whose
count is `≤` its own, so equal-count elements keep their original order. -/

/-- The `protocol` tag of a `LogEntry`. -/
inductive Protocol where
  | HTTP
  | HTTPS
  deriving DecidableEq

/-- The audit `LogEntry` record of `src/server.ts`. -/
structure LogEntry where
  timestamp : String
  method : String
  hostname : String
  path : String
  protocol : Protocol
  userAgent : Option String
  deriving DecidableEq

/-- One step of the counting loop:
`domainCounts.set(h, (domainCounts.get(h) || 0) + 1)` on an
insertion-ordered association list. -/
def insertCount : List (String × Nat) → String → List (String × Nat)
  | [], h => [(h, 1)]
  | (k, c) :: rest, h =>
    if k = h then (k, c + 1) :: rest else (k, c) :: insertCount rest h

/-- The per-hostname counts in key-insertion (first-seen) order, from the
sequence of logged hostnames. -/
def domainCounts (hs : List String) : List (String × Nat) :=
  hs.foldl insertCount []

/-- Stable descending insertion: place `x` before the first element whose
count is `≤ x`'s count (so `x` precedes every tied element that was
inserted before it, i.e. that occurs later in the original list). -/
def insertDesc (x : String × Nat) : List (String × Nat) → List (String × Nat)
  | [] => [x]
  | y :: ys => if y.2 ≤ x.2 then x :: y :: ys else y :: insertDesc x ys

/-- Stable sort by descending count: the unique result of any stable sort
with the comparator `(a, b) => b.count - a.count`. -/
def sortDesc : List (String × Nat) → List (String × Nat)
  | [] => []
  | x :: xs => insertDesc x (sortDesc xs)

/-- `getStats().topDomains`, keyed by the logged hostname sequence:
count, stable-sort descending, `slice(0, 10)`. -/
def topDomains (hs : List String) : List (String × Nat) :=
  (sortDesc (domainCounts hs)).take 10

/-- `getStats().topDomains` from the log entries themselves. -/
def getStatsTopDomains (entries : List LogEntry) : List (String × Nat) :=
  topDomains (entries.map LogEntry.hostname)

/-- Key-set effect of one `Map.set`: unchanged when present, appended when new. -/
def addKey (ks : List String) (h : String) : List String :=
  if h ∈ ks then ks else ks ++ [h]

/-- The distinct hostnames of `hs` in order of first occurrence. -/
def firstOcc : List String → List String
  | [] => []
  | h :: t => h :: (firstOcc t).filter (fun d => d ≠ h)

theorem mapFst_insertCount (m : List (String × Nat)) (h : String) :
    (insertCount m h).map Prod.fst = addKey (m.map Prod.fst) h := by
  induction m with
  | nil => simp [insertCount, addKey]
  | cons kc rest ih =>
    obtain ⟨k, c⟩ := kc
    by_cases hk : k = h
    · subst hk
      simp [insertCount, addKey]
    · simp only [insertCount, if_neg hk, List.map_cons, ih, addKey, List.mem_cons]
      by_cases hm : h ∈ rest.map Prod.fst
      · simp [hm, Ne.symm hk]
      · simp [hm, Ne.symm hk]

theorem foldl_insertCount_mapFst (hs : List String) :
    ∀ m : List (String × Nat),
      ((hs.foldl insertCount m).map Prod.fst) = hs.foldl addKey (m.map Prod.fst) := by
  induction hs with
  | nil => intro m; rfl
  | cons h t ih =>
    intro m
    simp only [List.foldl_cons, ih, mapFst_insertCount]

theorem foldl_addKey_eq (hs : List String) :
    ∀ ks : List String,
      hs.foldl addKey ks = ks ++ (firstOcc hs).filter (fun d => d ∉ ks) := by
  induction hs with
  | nil => intro ks; simp [firstOcc]
  | cons h t ih =>
    intro ks
    by_cases hm : h ∈ ks
    · have hstep : addKey ks h = ks := by simp [addKey, hm]
      rw [List.foldl_cons, hstep, ih ks, firstOcc]
      congr 1
      rw [List.filter_cons]
      have hh : (decide (h ∉ ks)) = false := by simp [hm]
      rw [if_neg (by simp [hm]), List.filter_filter]
      refine (List.filter_congr ?_).symm
      intro d _
      by_cases hd : d ∈ ks
      · simp [hd]
      · have : d ≠ h := fun e => hd (e ▸ hm)
        simp [hd, this]
    · have hstep : addKey ks h = ks ++ [h] := by simp [addKey, hm]
      have hfc : (firstOcc t).filter (fun d => d ∉ ks ++ [h]) =
          (firstOcc t).filter (fun a => decide (a ∉ ks) && decide (a ≠ h)) := by
        refine List.filter_congr ?_
        intro d _
        by_cases hd : d ∈ ks
        · simp [hd]
        · by_cases hdh : d = h
          · simp [hdh]
          · simp [hd, hdh]
      rw [List.foldl_cons, hstep, ih (ks ++ [h]), firstOcc, hfc,
        List.filter_cons, if_pos (by simp [hm]), List.filter_filter,
        List.append_assoc, List.singleton_append]

theorem domainCounts_keys (hs : List String) :
    (domainCounts hs).map Prod.fst = firstOcc hs := by
  unfold domainCounts
  rw [foldl_insertCount_mapFst, List.map_nil, foldl_addKey_eq hs []]
  simp

theorem firstOcc_sorted_by_indexOf (hs : List String) :
    (firstOcc hs).Pairwise (fun a b => hs.indexOf a < hs.indexOf b) := by
  induction hs with
  | nil => exact List.Pairwise.nil
  | cons h t ih =>
    rw [firstOcc]
    constructor
    · intro b hb
      have hbne : b ≠ h := by
        have := (List.mem_filter.mp hb).2
        simpa using this
      rw [List.indexOf_cons_self, List.indexOf_cons_ne _ (Ne.symm hbne)]
      exact Nat.succ_pos _
    · have hfil : ((firstOcc t).filter (fun d => d ≠ h)).Pairwise
          (fun a b => t.indexOf a < t.indexOf b) :=
        List.Pairwise.sublist (List.filter_sublist _) ih
      refine hfil.imp_of_mem ?_
      intro a b ha hb hab
      have hane : a ≠ h := by simpa using (List.mem_filter.mp ha).2
      have hbne : b ≠ h := by simpa using (List.mem_filter.mp hb).2
      rw [List.indexOf_cons_ne _ (Ne.symm hane), List.indexOf_cons_ne _ (Ne.symm hbne)]
      exact Nat.succ_lt_succ hab

theorem domainCounts_sorted_by_indexOf (hs : List String) :
    (domainCounts hs).Pairwise (fun a b => hs.indexOf a.1 < hs.indexOf b.1) := by
  have h := firstOcc_sorted_by_indexOf hs
  rw [← domainCounts_keys hs] at h
  exact (@List.pairwise_map (String × Nat) String Prod.fst
    (fun a b => hs.indexOf a < hs.indexOf b) (domainCounts hs)).mp h

theorem mem_insertDesc (x a : String × Nat) (l : List (String × Nat)) :
    a ∈ insertDesc x l ↔ a = x ∨ a ∈ l := by
  induction l with
  | nil => simp [insertDesc]
  | cons y ys ih =>
    rw [insertDesc]
    by_cases hy : y.2 ≤ x.2
    · simp [hy]
    · simp only [if_neg hy, List.mem_cons, ih]
      tauto

theorem insertDesc_pairwise {R : (String × Nat) → (String × Nat) → Prop}
    (x : String × Nat) (l : List (String × Nat))
    (hl : l.Pairwise (fun a b => b.2 < a.2 ∨ (a.2 = b.2 ∧ R a b)))
    (hx : ∀ y ∈ l, R x y) :
    (insertDesc x l).Pairwise (fun a b => b.2 < a.2 ∨ (a.2 = b.2 ∧ R a b)) := by
  induction l with
  | nil => simp [insertDesc]
  | cons y ys ih =>
    rw [insertDesc]
    rcases List.pairwise_cons.mp hl with ⟨hyys, hys⟩
    by_cases hy : y.2 ≤ x.2
    · rw [if_pos hy]
      refine List.pairwise_cons.mpr ⟨?_, hl⟩
      intro z hz
      rcases List.mem_cons.mp hz with hzy | hzys
      · subst hzy
        rcases Nat.lt_or_ge z.2 x.2 with hlt | hge
        · exact Or.inl hlt
        · exact Or.inr ⟨Nat.le_antisymm hge hy, hx z (List.mem_cons_self z ys)⟩
      · rcases hyys z hzys with hlt | ⟨heq, _⟩
        · exact Or.inl (Nat.lt_of_lt_of_le hlt hy)
        · have hzx : z.2 ≤ x.2 := heq ▸ hy
          rcases Nat.lt_or_ge z.2 x.2 with hlt | hge
          · exact Or.inl hlt
          · exact Or.inr ⟨Nat.le_antisymm hge hzx, hx z (List.mem_cons_of_mem y hzys)⟩
    · rw [if_neg hy]
      refine List.pairwise_cons.mpr ⟨?_, ih hys fun z hz => hx z (List.mem_cons_of_mem y hz)⟩
      intro z hz
      rcases (mem_insertDesc x z ys).mp hz with hzx | hzys
      · subst hzx
        exact Or.inl (Nat.lt_of_not_le hy)
      · exact hyys z hzys

theorem mem_sortDesc (a : String × Nat) (l : List (String × Nat)) :
    a ∈ sortDesc l ↔ a ∈ l := by
  induction l with
  | nil => simp [sortDesc]
  | cons x xs ih =>
    rw [sortDesc, mem_insertDesc, ih, List.mem_cons]

theorem sortDesc_pairwise {R : (String × Nat) → (String × Nat) → Prop}
    (l : List (String × Nat)) (hl : l.Pairwise R) :
    (sortDesc l).Pairwise (fun a b => b.2 < a.2 ∨ (a.2 = b.2 ∧ R a b)) := by
  induction l with
  | nil => exact List.Pairwise.nil
  | cons x xs ih =>
    rcases List.pairwise_cons.mp hl with ⟨hx, hxs⟩
    rw [sortDesc]
    exact insertDesc_pairwise x (sortDesc xs) (ih hxs)
      fun y hy => hx y ((mem_sortDesc y xs).mp hy)

theorem insertDesc_length (x : String × Nat) (l : List (String × Nat)) :
    (insertDesc x l).length = l.length + 1 := by
  induction l with
  | nil => rfl
  | cons y ys ih =>
    rw [insertDesc]
    by_cases hy : y.2 ≤ x.2
    · simp [hy]
    · simp [hy, ih]

theorem sortDesc_length (l : List (String × Nat)) :
    (sortDesc l).length = l.length := by
  induction l with
  | nil => rfl
  | cons x xs ih => rw [sortDesc, insertDesc_length, ih, List.length_cons]

theorem mem_firstOcc (a : String) (hs : List String) :
    a ∈ firstOcc hs ↔ a ∈ hs := by
  induction hs with
  | nil => simp [firstOcc]
  | cons h t ih =>
    rw [firstOcc]
    by_cases ha : a = h
    · simp [ha]
    · simp [List.mem_filter, ha, ih]

theorem firstOcc_nodup (hs : List String) : (firstOcc hs).Nodup := by
  induction hs with
  | nil => exact List.nodup_nil
  | cons h t ih =>
    rw [firstOcc]
    refine List.Pairwise.cons ?_ (List.Pairwise.sublist (List.filter_sublist _) ih)
    intro b hb
    have : b ≠ h := by simpa using (List.mem_filter.mp hb).2
    exact (this ∘ Eq.symm)

theorem firstOcc_length_eq_card (hs : List String) :
    (firstOcc hs).length = hs.toFinset.card := by
  have hset : (firstOcc hs).toFinset = hs.toFinset := by
    ext a
    simp [List.mem_toFinset, mem_firstOcc]
  rw [← List.toFinset_card_of_nodup (firstOcc_nodup hs), hset]

/-- Claim C9: the top-domains list contains at most 10 entries: its length
is the minimum of 10 and the number of distinct logged hostnames. -/
theorem getStats_topDomains_length (entries : List LogEntry) :
    (getStatsTopDomains entries).length =
      min 10 (entries.map LogEntry.hostname).toFinset.card := by
  unfold getStatsTopDomains topDomains
  rw [List.length_take, sortDesc_length, ← firstOcc_length_eq_card,
    ← domainCounts_keys, List.length_map]

/-- Claim C8: `getStats().topDomains` is sorted by descending per-hostname
count and, among entries with equal counts, ordered by the first
occurrence of the hostname in the log sequence (the sort is stable with
respect to first-seen insertion order). -/
theorem getStats_topDomains_sorted_stable (entries : List LogEntry) :
    (getStatsTopDomains entries).Pairwise (fun a b => b.2 ≤ a.2) ∧
      (getStatsTopDomains entries).Pairwise (fun a b => a.2 = b.2 →
        (entries.map LogEntry.hostname).indexOf a.1 <
          (entries.map LogEntry.hostname).indexOf b.1) := by
  set hs := entries.map LogEntry.hostname with hhs
  have hsorted := sortDesc_pairwise (domainCounts hs) (domainCounts_sorted_by_indexOf hs)
  have htaken := List.Pairwise.sublist (List.take_sublist 10 _) hsorted
  constructor
  · refine htaken.imp ?_
    rintro a b (hlt | ⟨heq, _⟩)
    · exact Nat.le_of_lt hlt
    · exact Nat.le_of_eq heq.symm
  · refine htaken.imp ?_
    rintro a b (hlt | ⟨heq, hidx⟩) heq2
    · exact absurd heq2 (Nat.ne_of_gt hlt)
    · exact hidx

end ProxiesLog
